import Mathlib

/-!
Verification of the Timeline subsystem and the Graphics sort order of the
CustomGameEngine repository.

The embedding models `TimelineSystem::Update`, `TimelineSystem::ToggleActive`
(SourceCodes/TimelineSystem.cpp), the `progress` computation shared by the
transition callbacks (SourceCodes/TimelineBehavior.h), and the entity
comparator used by `Graphics::Update` (SourceCodes/Graphics.cpp).

Times are modelled with rationals.  A transition callback is modelled by a
`Bool` field recording whether the C++ function pointer is bound, together
with an explicit effect parameter `cbIn`/`cbOut` describing what the bound
callback does to the timeline component; the unbound case corresponds to the
identity effect never being invoked.
-/

namespace Engine

/-- Mirror of the `TimelineComponent` data carried by each entity.
`TransitionIn`/`TransitionOut` record whether the corresponding callback
pointer is non-null (`if (timeline.TransitionIn)` in the source). -/
structure TimelineComponent where
  Active : Bool
  IsTransitioningIn : Bool
  InternalTimer : ℚ
  DelayAccumulated : ℚ
  DelayOutAccumulated : ℚ
  TransitionInDelay : ℚ
  TransitionOutDelay : ℚ
  TransitionDuration : ℚ
  TransitionIn : Bool
  TransitionOut : Bool
  TimelineTag : String
  startPosition : ℚ
  endPosition : ℚ
  Variable_1 : ℚ
  Variable_2 : ℚ
  Variable_3 : ℚ
  deriving DecidableEq, Repr

/-- The per-entity body of `TimelineSystem::Update` (TimelineSystem.cpp lines
66-110): the `Active` guard, the transition-in branch and the transition-out
branch.  `cbIn`/`cbOut` give the effect of a bound callback on the timeline
component (the source invokes the callback with the entity and the freshly
incremented `InternalTimer`, and the callback may mutate the component by
reference before the completion check re-reads it).  The result also records
whether the in/out callback was invoked this frame. -/
def updateTimelineAux (cbIn cbOut : ℚ → TimelineComponent → TimelineComponent)
    (dt : ℚ) (t : TimelineComponent) : TimelineComponent × Bool × Bool :=
  if ¬ t.Active then (t, false, false)
  else if t.IsTransitioningIn then
    -- timeline.DelayAccumulated += deltaTime
    let t1 := { t with DelayAccumulated := t.DelayAccumulated + dt }
    if t1.DelayAccumulated < t1.TransitionInDelay then (t1, false, false)
    else
      -- timeline.InternalTimer += deltaTime
      let t2 := { t1 with InternalTimer := t1.InternalTimer + dt }
      -- if (timeline.TransitionIn) timeline.TransitionIn(entity, timer)
      let t3 := if t2.TransitionIn then cbIn t2.InternalTimer t2 else t2
      if t3.TransitionDuration ≤ t3.InternalTimer then
        ({ t3 with IsTransitioningIn := false, InternalTimer := 0,
                   DelayAccumulated := 0 }, t2.TransitionIn, false)
      else (t3, t2.TransitionIn, false)
  else
    -- timeline.DelayOutAccumulated += deltaTime
    let t1 := { t with DelayOutAccumulated := t.DelayOutAccumulated + dt }
    if t1.DelayOutAccumulated < t1.TransitionOutDelay then (t1, false, false)
    else
      let t2 := { t1 with InternalTimer := t1.InternalTimer + dt }
      let t3 := if t2.TransitionOut then cbOut t2.InternalTimer t2 else t2
      if t3.TransitionDuration ≤ t3.InternalTimer then
        ({ t3 with Active := false }, false, t2.TransitionOut)
      else (t3, false, t2.TransitionOut)

/-- The identity callback effect: what an unbound (null) callback, or a bound
callback that leaves the timeline component untouched, does to the state. -/
def idCb : ℚ → TimelineComponent → TimelineComponent := fun _ t => t

/-- The state-machine-only step: `updateTimelineAux` with callbacks that do
not mutate the timeline component. -/
def updateTimeline (dt : ℚ) (t : TimelineComponent) : TimelineComponent :=
  (updateTimelineAux idCb idCb dt t).1

/-- Folding the per-frame step over a list of frame deltas, with arbitrary
callback effects. -/
def runTimelineWith (cbIn cbOut : ℚ → TimelineComponent → TimelineComponent)
    (ds : List ℚ) (t : TimelineComponent) : TimelineComponent :=
  ds.foldl (fun s d => (updateTimelineAux cbIn cbOut d s).1) t

/-- Folding the per-frame step over a list of frame deltas. -/
def runTimeline (ds : List ℚ) (t : TimelineComponent) : TimelineComponent :=
  ds.foldl (fun s d => updateTimeline d s) t

/-- An entity as seen by the Timeline System: its id, its `LayerComponent`
layer id, its external tag set, and its `TimelineComponent`. -/
structure TLEntity where
  eid : Nat
  layerID : Nat
  tags : List String
  timeline : TimelineComponent
  deriving DecidableEq, Repr

/-- The full per-entity body of the `TimelineSystem::Update` loop
(TimelineSystem.cpp lines 49-110): layer-visibility skip, idempotent tag
add, then the timeline state machine. -/
def processEntity (cbIn cbOut : ℚ → TimelineComponent → TimelineComponent)
    (vis : Nat → Bool) (dt : ℚ) (e : TLEntity) : TLEntity :=
  if ¬ vis e.layerID then e
  else
    let e1 := if e.tags.contains e.timeline.TimelineTag then e
              else { e with tags := e.tags ++ [e.timeline.TimelineTag] }
    { e1 with timeline := (updateTimelineAux cbIn cbOut dt e1.timeline).1 }

/-- `TimelineSystem::Update` (TimelineSystem.cpp lines 42-112): a no-op
unless `engineState.IsPlay()`, otherwise the per-entity body over the
member-entity set. -/
def timelineSystemUpdate (cbIn cbOut : ℚ → TimelineComponent → TimelineComponent)
    (isPlay : Bool) (vis : Nat → Bool) (dt : ℚ) (es : List TLEntity) : List TLEntity :=
  if ¬ isPlay then es
  else es.map (processEntity cbIn cbOut vis dt)

/-- `TimelineSystem::ToggleActive` (TimelineSystem.cpp lines 115-129):
sets `Active := true` on every tracked entity whose `TimelineTag` matches;
the second component is the `activated` flag (the warning is emitted exactly
when it is `false`). -/
def toggleActive (tag : String) (es : List TLEntity) : List TLEntity × Bool :=
  (es.map (fun e =>
      if e.timeline.TimelineTag = tag then
        { e with timeline := { e.timeline with Active := true } }
      else e),
   es.any (fun e => e.timeline.TimelineTag = tag))

/-- The progress computation shared by the transition callbacks
(TimelineBehavior.h, e.g. `SlideInTransition` lines 46-49):
`progress = std::min(timer / TransitionDuration, 1.0f)`. -/
def transitionProgress (timer dur : ℚ) : ℚ :=
  min (timer / dur) 1

/-- Set both callback-bound flags of a component at once; used to compare the
unbound-callback run with the bound-callback run. -/
def setBound (b : Bool) (t : TimelineComponent) : TimelineComponent :=
  { t with TransitionIn := b, TransitionOut := b }

/-- The entity comparator of the `std::sort` call in `Graphics::Update`
(Graphics.cpp lines 287-303): compare `layerID` first, then `sortID`, and
finally fall back to the entity id.  `comp e` returns the pair
`(layerID, sortID)` of entity `e`'s `LayerComponent`. -/
def graphicsLess (comp : Nat → Int × Int) (a b : Nat) : Bool :=
  if (comp a).1 ≠ (comp b).1 then decide ((comp a).1 < (comp b).1)
  else if (comp a).2 ≠ (comp b).2 then decide ((comp a).2 < (comp b).2)
  else decide (a < b)

/-- The `sortedEntities` computation of `Graphics::Update`: sort the member
entity ids with `graphicsLess` (modelled with a stable merge sort, whose
postcondition — a sorted permutation — is the guarantee `std::sort` gives for
a valid strict weak ordering). -/
def graphicsSortedEntities (comp : Nat → Int × Int) (l : List Nat) : List Nat :=
  l.mergeSort (fun a b => ! graphicsLess comp b a)

/-- A sample timeline component used to instantiate the theorems at concrete
inputs. -/
def sampleTimeline : TimelineComponent where
  Active := true
  IsTransitioningIn := true
  InternalTimer := 0
  DelayAccumulated := 0
  DelayOutAccumulated := 0
  TransitionInDelay := 1
  TransitionOutDelay := 0
  TransitionDuration := 2
  TransitionIn := false
  TransitionOut := false
  TimelineTag := "Intro"
  startPosition := 2400
  endPosition := 800
  Variable_1 := 0
  Variable_2 := 0
  Variable_3 := 0

/-- A sample component one frame away from completing its transition-out
phase. -/
def outEndTimeline : TimelineComponent :=
  { sampleTimeline with IsTransitioningIn := false, InternalTimer := 2 }

/-- A sample component in the state left behind by a completed
transition-out phase. -/
def doneTimeline : TimelineComponent :=
  { sampleTimeline with Active := false, IsTransitioningIn := false, InternalTimer := 3 }

/-- Specification of the transition-in completion pattern for a frame
sequence `ds` started from state `t0`: the sequence splits as
`pre ++ d :: post` where every state along `pre` is still transitioning in
with `InternalTimer < 2`, the frame `d` pushes the timer to at least `2`
and flips `IsTransitioningIn` to `false` with both `InternalTimer` and
`DelayAccumulated` reset to `0`, and `IsTransitioningIn` stays `false` for
the rest of the sequence. -/
def FlipSpecProp (t0 : TimelineComponent) (ds : List ℚ) : Prop :=
  ∃ pre d post, ds = pre ++ d :: post ∧
    (∀ p q, pre = p ++ q →
        (runTimeline p t0).IsTransitioningIn = true ∧
        (runTimeline p t0).InternalTimer < 2) ∧
    2 ≤ (runTimeline pre t0).InternalTimer + d ∧
    (updateTimeline d (runTimeline pre t0)).IsTransitioningIn = false ∧
    (updateTimeline d (runTimeline pre t0)).InternalTimer = 0 ∧
    (updateTimeline d (runTimeline pre t0)).DelayAccumulated = 0 ∧
    (∀ p q, post = p ++ q →
        (runTimeline p (updateTimeline d (runTimeline pre t0))).IsTransitioningIn = false)

end Engine

namespace Engine

/-! ## Helper lemmas -/

/-- An inactive timeline component is left untouched by a frame step, and no
callback fires. -/
theorem updateTimelineAux_inactive (cbIn cbOut : ℚ → TimelineComponent → TimelineComponent)
    (dt : ℚ) (t : TimelineComponent) (h : t.Active = false) :
    updateTimelineAux cbIn cbOut dt t = (t, false, false) := by
  simp [updateTimelineAux, h]

/-- An inactive timeline component is fixed by any sequence of frame steps,
with any callback effects. -/
theorem runTimelineWith_inactive (cbIn cbOut : ℚ → TimelineComponent → TimelineComponent)
    (ds : List ℚ) (t : TimelineComponent) (h : t.Active = false) :
    runTimelineWith cbIn cbOut ds t = t := by
  induction ds with
  | nil => rfl
  | cons d ds ih =>
      have hstep := updateTimelineAux_inactive cbIn cbOut d t h
      simp only [runTimelineWith, List.foldl_cons, hstep]
      exact ih

/-- Once `IsTransitioningIn` is `false`, the state-machine step never sets it
back to `true`. -/
theorem updateTimeline_not_in (dt : ℚ) (t : TimelineComponent)
    (h : t.IsTransitioningIn = false) :
    (updateTimeline dt t).IsTransitioningIn = false := by
  by_cases hA : t.Active
  · simp only [updateTimeline, updateTimelineAux, hA, h, idCb]
    norm_num
    split
    · rfl
    · split <;> rfl
  · simp [updateTimeline, updateTimelineAux, hA, h]

/-- Once `IsTransitioningIn` is `false`, it stays `false` along any run. -/
theorem runTimeline_not_in (ds : List ℚ) (t : TimelineComponent)
    (h : t.IsTransitioningIn = false) :
    (runTimeline ds t).IsTransitioningIn = false := by
  induction ds generalizing t with
  | nil => exact h
  | cons d ds ih =>
      simp only [runTimeline, List.foldl_cons]
      exact ih _ (updateTimeline_not_in d t h)

/-! ## Claims -/

/-- C2: if the engine state does not report play mode, `TimelineSystem::Update`
is a no-op for every entity: the entity list — timeline fields, tags, and
all — is returned unchanged and no callback can be invoked. -/
theorem timelineSystem_update_noop_when_not_play
    (cbIn cbOut : ℚ → TimelineComponent → TimelineComponent)
    (vis : Nat → Bool) (dt : ℚ) (es : List TLEntity) :
    timelineSystemUpdate cbIn cbOut false vis dt es = es := by
  simp [timelineSystemUpdate]

/-- C3 counterexample: an entity with `Active = false` on a visible layer is
not skipped entirely — the tag-add at TimelineSystem.cpp lines 61-63 runs
before the `Active` check at lines 66-68, so the entity acquires its
`TimelineTag` during the Update call even though its timeline is inactive. -/
theorem timeline_inactive_tag_added_cex :
    timelineSystemUpdate idCb idCb true (fun _ => true) 1
        [⟨0, 0, [], { sampleTimeline with Active := false }⟩] =
      [⟨0, 0, ["Intro"], { sampleTimeline with Active := false }⟩] := by
  rfl

/-- C3 (amended): for an entity with `Active = false` on a visible layer, the
timeline component is completely frozen during `TimelineSystem::Update` — but
the idempotent tag-add still runs: the entity's `TimelineTag` is appended to
its tag list when absent, and the tag list is unchanged when already
present. -/
theorem timeline_inactive_frozen
    (cbIn cbOut : ℚ → TimelineComponent → TimelineComponent)
    (vis : Nat → Bool) (dt : ℚ) (e : TLEntity)
    (hA : e.timeline.Active = false) (hv : vis e.layerID = true) :
    (processEntity cbIn cbOut vis dt e).timeline = e.timeline ∧
    (processEntity cbIn cbOut vis dt e).tags =
      (if e.tags.contains e.timeline.TimelineTag then e.tags
       else e.tags ++ [e.timeline.TimelineTag]) := by
  have hstep := updateTimelineAux_inactive cbIn cbOut dt e.timeline hA
  by_cases htag : e.timeline.TimelineTag ∈ e.tags <;>
    constructor <;> simp [processEntity, hv, htag, hstep]

/-- C3 (amended) witness at a concrete inactive entity. -/
theorem timeline_inactive_frozen_witness :
    (processEntity idCb idCb (fun _ => true) 1
        ⟨0, 0, ["Intro"], { sampleTimeline with Active := false }⟩).timeline =
      { sampleTimeline with Active := false } ∧
    (processEntity idCb idCb (fun _ => true) 1
        ⟨0, 0, ["Intro"], { sampleTimeline with Active := false }⟩).tags =
      (if (["Intro"] : List String).contains
            ({ sampleTimeline with Active := false } : TimelineComponent).TimelineTag
       then (["Intro"] : List String)
       else ["Intro"] ++ [({ sampleTimeline with Active := false } : TimelineComponent).TimelineTag]) :=
  timeline_inactive_frozen idCb idCb (fun _ => true) 1
    ⟨0, 0, ["Intro"], { sampleTimeline with Active := false }⟩ rfl rfl

/-- C4: `ToggleActive(tag)` sets `Active = true` for every tracked entity
whose `TimelineTag` equals the tag; if no tracked entity matches, no entity
changes at all and the `activated` flag is `false`, which is exactly the
condition under which the non-fatal warning is printed. -/
theorem toggleActive_spec (tag : String) (es : List TLEntity) :
    (∀ e ∈ (toggleActive tag es).1, e.timeline.TimelineTag = tag →
        e.timeline.Active = true) ∧
    ((∀ e ∈ es, e.timeline.TimelineTag ≠ tag) →
        (toggleActive tag es).1 = es ∧ (toggleActive tag es).2 = false) := by
  constructor
  · intro e he htag
    simp only [toggleActive, List.mem_map] at he
    obtain ⟨x, hx, rfl⟩ := he
    by_cases hm : x.timeline.TimelineTag = tag
    · simp [hm]
    · rw [if_neg hm] at htag ⊢
      exact absurd htag hm
  · intro hnone
    constructor
    · simp only [toggleActive]
      have hid : ∀ e ∈ es,
          (if e.timeline.TimelineTag = tag then
            { e with timeline := { e.timeline with Active := true } }
          else e) = e := by
        intro e he
        rw [if_neg (hnone e he)]
      calc es.map _ = es.map id := List.map_congr_left hid
        _ = es := List.map_id es
    · simp only [toggleActive, List.any_eq_false, decide_eq_true_eq]
      exact hnone

/-- C4 witness: `ToggleActive` with a tag no tracked entity carries leaves
the entity list unchanged and reports no activation. -/
theorem toggleActive_spec_witness :
    (toggleActive "Boss" [⟨0, 0, [], sampleTimeline⟩]).1 =
        [⟨0, 0, [], sampleTimeline⟩] ∧
    (toggleActive "Boss" [⟨0, 0, [], sampleTimeline⟩]).2 = false :=
  (toggleActive_spec "Boss" [⟨0, 0, [], sampleTimeline⟩]).2 (by decide)

/-- C9: `ToggleActive` mutates only the `Active` field: every listed entity is
mapped to itself with at most its `Active` flag replaced, a matching entity
gets `Active = true`, and a non-matching entity is returned entirely
unchanged (so reactivation resumes the timeline in its previous phase and
timer state). -/
theorem toggleActive_mutates_only_active (tag : String) (es : List TLEntity)
    (i : Nat) (e e' : TLEntity)
    (h : es[i]? = some e) (h' : (toggleActive tag es).1[i]? = some e') :
    e' = { e with timeline := { e.timeline with Active := e'.timeline.Active } } ∧
    (e.timeline.TimelineTag = tag → e'.timeline.Active = true) ∧
    (e.timeline.TimelineTag ≠ tag → e' = e) := by
  have hmap : (toggleActive tag es).1[i]? = (es[i]?).map
      (fun e => if e.timeline.TimelineTag = tag then
          { e with timeline := { e.timeline with Active := true } }
        else e) := by
    simp [toggleActive, List.getElem?_map]
  rw [hmap, h] at h'
  simp only [Option.map_some', Option.some.injEq] at h'
  have he' : e' = if e.timeline.TimelineTag = tag then
      { e with timeline := { e.timeline with Active := true } }
    else e := h'.symm
  by_cases hm : e.timeline.TimelineTag = tag
  · rw [if_pos hm] at he'
    subst he'
    refine ⟨rfl, fun _ => rfl, fun hc => absurd hm hc⟩
  · rw [if_neg hm] at he'
    subst he'
    exact ⟨rfl, fun hc => absurd hc hm, fun _ => rfl⟩

/-- C9 witness: `ToggleActive` at a matching singleton list flips `Active`
and leaves every other field alone. -/
theorem toggleActive_mutates_only_active_witness :
    (⟨0, 0, [], { sampleTimeline with Active := true }⟩ : TLEntity) =
      { (⟨0, 0, [], sampleTimeline⟩ : TLEntity) with
          timeline := { sampleTimeline with
            Active := ({ sampleTimeline with Active := true } : TimelineComponent).Active } } ∧
    (sampleTimeline.TimelineTag = "Intro" →
      ({ sampleTimeline with Active := true } : TimelineComponent).Active = true) ∧
    (sampleTimeline.TimelineTag ≠ "Intro" →
      (⟨0, 0, [], { sampleTimeline with Active := true }⟩ : TLEntity) =
        ⟨0, 0, [], sampleTimeline⟩) :=
  toggleActive_mutates_only_active "Intro" [⟨0, 0, [], sampleTimeline⟩] 0
    ⟨0, 0, [], sampleTimeline⟩ ⟨0, 0, [], { sampleTimeline with Active := true }⟩
    rfl (by simp [toggleActive, sampleTimeline])

/-- C5: when the transition-out phase completes (`Active`, not transitioning
in, out delay elapsed, `InternalTimer` reaching `TransitionDuration` this
frame), `Update` deactivates the timeline, and an inactive timeline is fixed
by every further sequence of `Update` frames, with any callback effects,
until externally reactivated. -/
theorem timeline_out_complete_terminal (dt : ℚ) (t : TimelineComponent)
    (hA : t.Active = true) (hI : t.IsTransitioningIn = false)
    (hD : t.TransitionOutDelay ≤ t.DelayOutAccumulated + dt)
    (hT : t.TransitionDuration ≤ t.InternalTimer + dt) :
    (updateTimeline dt t).Active = false ∧
    (∀ cbIn cbOut ds, runTimelineWith cbIn cbOut ds (updateTimeline dt t)
        = updateTimeline dt t) := by
  have h1 : ¬ (t.DelayOutAccumulated + dt < t.TransitionOutDelay) := not_lt.mpr hD
  have hact : (updateTimeline dt t).Active = false := by
    simp [updateTimeline, updateTimelineAux, hA, hI, h1, idCb, hT]
  exact ⟨hact, fun cbIn cbOut ds =>
    runTimelineWith_inactive cbIn cbOut ds (updateTimeline dt t) hact⟩

/-- C5 witness at a concrete component one frame away from completing its
transition-out phase. -/
theorem timeline_out_complete_terminal_witness :
    (updateTimeline 1
        { sampleTimeline with IsTransitioningIn := false, InternalTimer := 2 }).Active
      = false :=
  (timeline_out_complete_terminal 1
    { sampleTimeline with IsTransitioningIn := false, InternalTimer := 2 }
    rfl rfl (by simp [sampleTimeline]) (by simp [sampleTimeline])).1

/-- C7: an unbound (null) transition callback is tolerated: with both
callback pointers null the per-entity step produces exactly the state the
bound-callback step would produce when the bound callback leaves the
component untouched (modulo the bound flags themselves), the timer still
advances by `deltaTime` past the delay in either phase, and the
phase-completion checks run exactly as usual. -/
theorem timeline_null_callback_tolerated
    (cbIn cbOut : ℚ → TimelineComponent → TimelineComponent)
    (dt : ℚ) (t : TimelineComponent) :
    (updateTimelineAux cbIn cbOut dt (setBound false t)).1
      = setBound false ((updateTimelineAux idCb idCb dt (setBound true t)).1) ∧
    (t.Active = true → t.IsTransitioningIn = true →
      t.TransitionInDelay ≤ t.DelayAccumulated + dt →
      ((updateTimelineAux cbIn cbOut dt (setBound false t)).1.InternalTimer
          = (if t.TransitionDuration ≤ t.InternalTimer + dt then 0
             else t.InternalTimer + dt) ∧
        (updateTimelineAux cbIn cbOut dt (setBound false t)).1.IsTransitioningIn
          = (if t.TransitionDuration ≤ t.InternalTimer + dt then false else true))) ∧
    (t.Active = true → t.IsTransitioningIn = false →
      t.TransitionOutDelay ≤ t.DelayOutAccumulated + dt →
      ((updateTimelineAux cbIn cbOut dt (setBound false t)).1.InternalTimer
          = t.InternalTimer + dt ∧
        (updateTimelineAux cbIn cbOut dt (setBound false t)).1.Active
          = (if t.TransitionDuration ≤ t.InternalTimer + dt then false else true))) := by
  refine ⟨?_, ?_, ?_⟩
  · by_cases hA : t.Active
    · by_cases hI : t.IsTransitioningIn
      · by_cases h3 : t.DelayAccumulated + dt < t.TransitionInDelay
        · simp [updateTimelineAux, setBound, idCb, hA, hI, h3]
        · by_cases h4 : t.TransitionDuration ≤ t.InternalTimer + dt
          · simp [updateTimelineAux, setBound, idCb, hA, hI, h3, h4]
          · simp [updateTimelineAux, setBound, idCb, hA, hI, h3, h4]
      · by_cases h5 : t.DelayOutAccumulated + dt < t.TransitionOutDelay
        · simp [updateTimelineAux, setBound, idCb, hA, hI, h5]
        · by_cases h6 : t.TransitionDuration ≤ t.InternalTimer + dt
          · simp [updateTimelineAux, setBound, idCb, hA, hI, h5, h6]
          · simp [updateTimelineAux, setBound, idCb, hA, hI, h5, h6]
    · simp [updateTimelineAux, setBound, hA]
  · intro hA hI hdel
    have h3 : ¬ (t.DelayAccumulated + dt < t.TransitionInDelay) := not_lt.mpr hdel
    by_cases h4 : t.TransitionDuration ≤ t.InternalTimer + dt
    · constructor <;> simp [updateTimelineAux, setBound, hA, hI, h3, h4]
    · constructor <;> simp [updateTimelineAux, setBound, hA, hI, h3, h4]
  · intro hA hI hdel
    have h5 : ¬ (t.DelayOutAccumulated + dt < t.TransitionOutDelay) := not_lt.mpr hdel
    by_cases h6 : t.TransitionDuration ≤ t.InternalTimer + dt
    · constructor <;> simp [updateTimelineAux, setBound, hA, hI, h5, h6]
    · constructor <;> simp [updateTimelineAux, setBound, hA, hI, h5, h6, hA]

/-- C7 witness: a concrete unbound-callback frame in the transition-in phase
past its delay. -/
theorem timeline_null_callback_tolerated_witness :
    ((updateTimelineAux idCb idCb 3 (setBound false sampleTimeline)).1.InternalTimer
        = (if sampleTimeline.TransitionDuration ≤ sampleTimeline.InternalTimer + 3 then 0
           else sampleTimeline.InternalTimer + 3) ∧
      (updateTimelineAux idCb idCb 3 (setBound false sampleTimeline)).1.IsTransitioningIn
        = (if sampleTimeline.TransitionDuration ≤ sampleTimeline.InternalTimer + 3 then false
           else true)) :=
  (timeline_null_callback_tolerated idCb idCb 3 sampleTimeline).2.1
    rfl rfl (by simp [sampleTimeline])

/-- C6: the clamped progress used by the transition callbacks is monotone in
the timer for a positive `TransitionDuration`, never exceeds `1` however far
a single frame overshoots, and equals exactly `1` on any frame at which the
state machine ends the transition-in phase. -/
theorem transitionProgress_spec (d : ℚ) (hd : 0 < d) :
    (∀ u v : ℚ, u ≤ v → transitionProgress u d ≤ transitionProgress v d) ∧
    (∀ u : ℚ, transitionProgress u d ≤ 1) ∧
    (∀ (dt : ℚ) (t : TimelineComponent),
      t.Active = true → t.IsTransitioningIn = true → t.TransitionDuration = d →
      t.TransitionInDelay ≤ t.DelayAccumulated + dt →
      (updateTimeline dt t).IsTransitioningIn = false →
      transitionProgress (t.InternalTimer + dt) d = 1) := by
  refine ⟨?_, ?_, ?_⟩
  · intro u v huv
    exact min_le_min ((div_le_div_iff_of_pos_right hd).mpr huv) le_rfl
  · intro u
    exact min_le_right _ _
  · intro dt t hA hI hdur hdelay hflip
    have h3 : ¬ (t.DelayAccumulated + dt < t.TransitionInDelay) := not_lt.mpr hdelay
    by_cases hc : t.TransitionDuration ≤ t.InternalTimer + dt
    · have h1 : (1:ℚ) ≤ (t.InternalTimer + dt) / d :=
        (one_le_div hd).mpr (hdur ▸ hc)
      simp [transitionProgress, min_eq_right h1]
    · exfalso
      have hkeep : (updateTimeline dt t).IsTransitioningIn = true := by
        simp [updateTimeline, updateTimelineAux, hA, hI, h3, idCb, hc]
      exact Bool.noConfusion (hkeep.symm.trans hflip)

/-- C6 witness: a frame that overshoots the whole duration still yields
progress exactly `1` on the flip frame. -/
theorem transitionProgress_spec_witness :
    transitionProgress (sampleTimeline.InternalTimer + 3) 2 = 1 :=
  (transitionProgress_spec 2 (by decide)).2.2 3 sampleTimeline
    rfl rfl rfl (by simp [sampleTimeline])
    (by simp +decide [updateTimeline, updateTimelineAux, idCb, sampleTimeline])

/-- C10: completing the transition-out phase mutates only `Active` (the
timer and out-delay keep their just-incremented values and
`IsTransitioningIn` is untouched); `ToggleActive` on the completed state
re-enters it with the thresholds already exceeded, so a single further
`Update` frame fires the transition-out callback once more (when bound) and
deactivates again. -/
theorem timeline_out_complete_no_reset (dt : ℚ) (t : TimelineComponent) :
    (t.Active = true → t.IsTransitioningIn = false →
      t.TransitionOutDelay ≤ t.DelayOutAccumulated + dt →
      t.TransitionDuration ≤ t.InternalTimer + dt →
      updateTimeline dt t
        = { t with Active := false,
                   DelayOutAccumulated := t.DelayOutAccumulated + dt,
                   InternalTimer := t.InternalTimer + dt }) ∧
    (∀ n l tg, (toggleActive t.TimelineTag [⟨n, l, tg, t⟩]).1
        = [⟨n, l, tg, { t with Active := true }⟩]) ∧
    (∀ dt2 : ℚ, 0 ≤ dt2 → t.IsTransitioningIn = false →
      t.TransitionOutDelay ≤ t.DelayOutAccumulated →
      t.TransitionDuration ≤ t.InternalTimer →
      (updateTimelineAux idCb idCb dt2 { t with Active := true }).1.Active = false ∧
      (updateTimelineAux idCb idCb dt2 { t with Active := true }).2.2
        = t.TransitionOut) := by
  refine ⟨?_, ?_, ?_⟩
  · intro hA hI hD hT
    have h1 : ¬ (t.DelayOutAccumulated + dt < t.TransitionOutDelay) := not_lt.mpr hD
    simp [updateTimeline, updateTimelineAux, hA, hI, h1, idCb, hT]
  · intro n l tg
    simp [toggleActive]
  · intro dt2 h0 hI hD hT
    have h1 : ¬ (t.DelayOutAccumulated + dt2 < t.TransitionOutDelay) :=
      not_lt.mpr (le_trans hD (le_add_of_nonneg_right h0))
    have h2 : t.TransitionDuration ≤ t.InternalTimer + dt2 :=
      le_trans hT (le_add_of_nonneg_right h0)
    constructor <;> simp [updateTimelineAux, idCb, hI, h1, h2]

/-- C10 witness: a concrete out-phase completion frame, and a reactivated
completed timeline deactivating after a single frame while reporting its
callback-bound flag. -/
theorem timeline_out_complete_no_reset_witness :
    (updateTimeline 1 outEndTimeline
      = { outEndTimeline with
            Active := false,
            DelayOutAccumulated := outEndTimeline.DelayOutAccumulated + 1,
            InternalTimer := outEndTimeline.InternalTimer + 1 }) ∧
    ((updateTimelineAux idCb idCb 1 { doneTimeline with Active := true }).1.Active
        = false ∧
      (updateTimelineAux idCb idCb 1 { doneTimeline with Active := true }).2.2
        = doneTimeline.TransitionOut) :=
  ⟨(timeline_out_complete_no_reset 1 outEndTimeline).1
      rfl rfl (by simp +decide [outEndTimeline, sampleTimeline])
      (by simp +decide [outEndTimeline, sampleTimeline]),
   (timeline_out_complete_no_reset 1 doneTimeline).2.2 1
      (by simp) rfl (by simp +decide [doneTimeline, sampleTimeline])
      (by simp +decide [doneTimeline, sampleTimeline])⟩

/-- The comparator of `Graphics::Update` decides exactly the lexicographic
order on `(layerID, sortID, entity id)`. -/
theorem graphicsLess_iff (comp : Nat → Int × Int) (a b : Nat) :
    graphicsLess comp a b = true ↔
      ((comp a).1 < (comp b).1 ∨
        ((comp a).1 = (comp b).1 ∧
          ((comp a).2 < (comp b).2 ∨ ((comp a).2 = (comp b).2 ∧ a < b)))) := by
  simp only [graphicsLess]
  split_ifs with h1 h2 <;> simp only [decide_eq_true_eq] <;> omega

/-- The comparator's negation, in lexicographic terms. -/
theorem graphicsLess_false_iff (comp : Nat → Int × Int) (a b : Nat) :
    graphicsLess comp a b = false ↔
      ¬ ((comp a).1 < (comp b).1 ∨
        ((comp a).1 = (comp b).1 ∧
          ((comp a).2 < (comp b).2 ∨ ((comp a).2 = (comp b).2 ∧ a < b)))) := by
  rw [← graphicsLess_iff]
  cases h : graphicsLess comp a b <;> simp

/-- C8: the per-frame entity sort of the rendering system is governed by a
strict total order: the comparator is lexicographic on
`(layerID, sortID, entity id)`, irreflexive, transitive, asymmetric and
total on distinct ids (hence a valid strict weak ordering for `std::sort`),
the sorted list is a permutation of the members, it is sorted with respect
to the comparator, and on duplicate-free member ids it is strictly
lexicographically increasing. -/
theorem graphics_sort_spec (comp : Nat → Int × Int) :
    (∀ a b, graphicsLess comp a b = true ↔
        ((comp a).1 < (comp b).1 ∨
          ((comp a).1 = (comp b).1 ∧
            ((comp a).2 < (comp b).2 ∨ ((comp a).2 = (comp b).2 ∧ a < b))))) ∧
    (∀ a, graphicsLess comp a a = false) ∧
    (∀ a b c, graphicsLess comp a b = true → graphicsLess comp b c = true →
        graphicsLess comp a c = true) ∧
    (∀ a b, graphicsLess comp a b = true → graphicsLess comp b a = false) ∧
    (∀ a b, a ≠ b → graphicsLess comp a b = true ∨ graphicsLess comp b a = true) ∧
    (∀ l, (graphicsSortedEntities comp l).Perm l) ∧
    (∀ l, List.Pairwise (fun a b => graphicsLess comp b a = false)
        (graphicsSortedEntities comp l)) ∧
    (∀ l, l.Nodup → List.Pairwise (fun a b => graphicsLess comp a b = true)
        (graphicsSortedEntities comp l)) := by
  have hiff := graphicsLess_iff comp
  have hiffF := graphicsLess_false_iff comp
  have hirr : ∀ a, graphicsLess comp a a = false := by
    intro a
    rw [hiffF]
    omega
  have htrans : ∀ a b c, graphicsLess comp a b = true → graphicsLess comp b c = true →
      graphicsLess comp a c = true := by
    intro a b c hab hbc
    rw [hiff] at hab hbc ⊢
    omega
  have hasym : ∀ a b, graphicsLess comp a b = true → graphicsLess comp b a = false := by
    intro a b hab
    rw [hiff] at hab
    rw [hiffF]
    omega
  have htotal : ∀ a b, a ≠ b → graphicsLess comp a b = true ∨ graphicsLess comp b a = true := by
    intro a b hne
    rw [hiff, hiff]
    omega
  have hletrans : ∀ a b c : Nat, (! graphicsLess comp b a) = true →
      (! graphicsLess comp c b) = true → (! graphicsLess comp c a) = true := by
    intro a b c hab hbc
    rw [Bool.not_eq_eq_eq_not, Bool.not_true, hiffF] at hab hbc ⊢
    omega
  have hletotal : ∀ a b : Nat, ((! graphicsLess comp b a) || (! graphicsLess comp a b)) = true := by
    intro a b
    rcases h : graphicsLess comp b a with _ | _
    · simp
    · have := hasym b a h
      simp [this]
  have hpair : ∀ l, List.Pairwise (fun a b => graphicsLess comp b a = false)
      (graphicsSortedEntities comp l) := by
    intro l
    have hs := List.sorted_mergeSort hletrans hletotal l
    refine hs.imp ?_
    intro a b hab
    rwa [Bool.not_eq_eq_eq_not, Bool.not_true] at hab
  refine ⟨hiff, hirr, htrans, hasym, htotal, fun l => List.mergeSort_perm l _, hpair, ?_⟩
  intro l hnd
  have hnd2 : (graphicsSortedEntities comp l).Nodup :=
    (List.mergeSort_perm l _).symm.nodup hnd
  have hcomb := (hpair l).and hnd2
  refine hcomb.imp ?_
  intro a b hab
  rcases htotal a b hab.2 with h | h
  · exact h
  · rw [hab.1] at h
    exact Bool.noConfusion h

/-- C8 witness: the sorted order on a concrete duplicate-free member set is
strictly increasing under the comparator. -/
theorem graphics_sort_spec_witness :
    List.Pairwise (fun a b => graphicsLess (fun _ => (0, 0)) a b = true)
      (graphicsSortedEntities (fun _ => (0, 0)) [5]) :=
  (graphics_sort_spec (fun _ => (0, 0))).2.2.2.2.2.2.2 [5] (by decide)

/-! ## The transition-in state machine (C1) -/

/-- A waiting frame: while the accumulated delay stays below the configured
transition-in delay, the step only accumulates the delay and fires no
callback. -/
theorem updateTimelineAux_wait
    (cbIn cbOut : ℚ → TimelineComponent → TimelineComponent)
    (dt : ℚ) (t : TimelineComponent)
    (hA : t.Active = true) (hI : t.IsTransitioningIn = true)
    (hw : t.DelayAccumulated + dt < t.TransitionInDelay) :
    updateTimelineAux cbIn cbOut dt t
      = ({ t with DelayAccumulated := t.DelayAccumulated + dt }, false, false) := by
  simp [updateTimelineAux, hA, hI, hw]

/-- A transition-in frame past the delay that does not yet complete the
phase: delay and timer both advance by `deltaTime`. -/
theorem updateTimeline_advance_noflip (dt : ℚ) (t : TimelineComponent)
    (hA : t.Active = true) (hI : t.IsTransitioningIn = true)
    (hw : ¬ (t.DelayAccumulated + dt < t.TransitionInDelay))
    (hc : ¬ (t.TransitionDuration ≤ t.InternalTimer + dt)) :
    updateTimeline dt t
      = { t with DelayAccumulated := t.DelayAccumulated + dt,
                 InternalTimer := t.InternalTimer + dt } := by
  by_cases hb : t.TransitionIn <;>
    simp [updateTimeline, updateTimelineAux, hA, hI, hw, hc, hb, idCb]

/-- A transition-in frame past the delay that completes the phase: the flag
flips and the timer and delay reset. -/
theorem updateTimeline_advance_flip (dt : ℚ) (t : TimelineComponent)
    (hA : t.Active = true) (hI : t.IsTransitioningIn = true)
    (hw : ¬ (t.DelayAccumulated + dt < t.TransitionInDelay))
    (hc : t.TransitionDuration ≤ t.InternalTimer + dt) :
    updateTimeline dt t
      = { t with IsTransitioningIn := false, InternalTimer := 0,
                 DelayAccumulated := 0 } := by
  by_cases hb : t.TransitionIn <;>
    simp [updateTimeline, updateTimelineAux, hA, hI, hw, hc, hb, idCb]

/-- A cons step of `runTimeline`. -/
theorem runTimeline_cons (d : ℚ) (ds : List ℚ) (t : TimelineComponent) :
    runTimeline (d :: ds) t = runTimeline ds (updateTimeline d t) := by
  simp [runTimeline]

/-- Past the delay, the transition-in callback invocation flag equals the
callback-bound flag. -/
theorem updateTimelineAux_in_event
    (cbIn cbOut : ℚ → TimelineComponent → TimelineComponent)
    (dt : ℚ) (t : TimelineComponent)
    (hA : t.Active = true) (hI : t.IsTransitioningIn = true)
    (hw : ¬ (t.DelayAccumulated + dt < t.TransitionInDelay)) :
    (updateTimelineAux cbIn cbOut dt t).2.1 = t.TransitionIn := by
  by_cases hb : t.TransitionIn
  · simp only [updateTimelineAux, hA, hI, hw, hb, idCb]
    norm_num
    split <;> simp [hb]
  · simp only [updateTimelineAux, hA, hI, hw, idCb]
    norm_num
    split <;> simp [hb] <;> split <;> simp

/-- Extending the flip pattern by one in-phase frame before it. -/
theorem flipSpecProp_cons (t0 : TimelineComponent) (d0 : ℚ) (ds : List ℚ)
    (h0 : t0.IsTransitioningIn = true) (h2 : t0.InternalTimer < 2)
    (h : FlipSpecProp (updateTimeline d0 t0) ds) :
    FlipSpecProp t0 (d0 :: ds) := by
  obtain ⟨pre, d, post, heq, hpre, hge, hf1, hf2, hf3, hpost⟩ := h
  refine ⟨d0 :: pre, d, post, by simp [heq], ?_, ?_, ?_, ?_, ?_, ?_⟩
  · intro p q hpq
    cases p with
    | nil => exact ⟨h0, h2⟩
    | cons x p2 =>
        rw [List.cons_append] at hpq
        injection hpq with h1 h2
        subst h1
        rw [runTimeline_cons]
        exact hpre p2 q h2
  · rw [runTimeline_cons]
    exact hge
  · rw [runTimeline_cons]
    exact hf1
  · rw [runTimeline_cons]
    exact hf2
  · rw [runTimeline_cons]
    exact hf3
  · intro p q hpq
    rw [runTimeline_cons]
    exact hpost p q hpq

/-- The flip pattern when the current frame itself completes the phase. -/
theorem flipSpecProp_here (t : TimelineComponent) (d : ℚ) (rest : List ℚ)
    (hA : t.Active = true) (hI : t.IsTransitioningIn = true)
    (hw : ¬ (t.DelayAccumulated + d < t.TransitionInDelay))
    (hdur : t.TransitionDuration = 2)
    (h2 : t.InternalTimer < 2) (hfl : 2 ≤ t.InternalTimer + d) :
    FlipSpecProp t (d :: rest) := by
  have hstep := updateTimeline_advance_flip d t hA hI hw (by rw [hdur]; exact hfl)
  refine ⟨[], d, rest, rfl, ?_, ?_, ?_, ?_, ?_, ?_⟩
  · intro p q hpq
    have hp : p = [] := List.append_eq_nil.mp hpq.symm |>.1
    subst hp
    exact ⟨hI, h2⟩
  · exact hfl
  · rw [show runTimeline [] t = t from rfl, hstep]
  · rw [show runTimeline [] t = t from rfl, hstep]
  · rw [show runTimeline [] t = t from rfl, hstep]
  · intro p q hpq
    apply runTimeline_not_in
    rw [show runTimeline [] t = t from rfl, hstep]

/-- From a mid-transition state (delay already crossed, timer strictly below
the duration) with enough remaining frame time, the flip pattern holds. -/
theorem flipSpecProp_of_mid (ds : List ℚ) : ∀ t : TimelineComponent,
    (∀ d ∈ ds, 0 < d) →
    t.Active = true → t.IsTransitioningIn = true →
    t.TransitionInDelay = 1 → t.TransitionDuration = 2 →
    1 ≤ t.DelayAccumulated → t.InternalTimer < 2 →
    2 ≤ t.InternalTimer + ds.sum →
    FlipSpecProp t ds := by
  induction ds with
  | nil =>
      intro t _ _ _ _ _ _ h2 hsum
      rw [List.sum_nil, add_zero] at hsum
      exact absurd hsum (not_le.mpr h2)
  | cons d rest ih =>
      intro t hpos hA hI hdin hdur hdel h2 hsum
      have hd : 0 < d := hpos d (List.mem_cons_self d rest)
      have hw : ¬ (t.DelayAccumulated + d < t.TransitionInDelay) := by
        rw [hdin]
        push_neg
        linarith
      by_cases hfl : 2 ≤ t.InternalTimer + d
      · exact flipSpecProp_here t d rest hA hI hw hdur h2 hfl
      · have hstep := updateTimeline_advance_noflip d t hA hI hw
          (by rw [hdur]; exact hfl)
        apply flipSpecProp_cons t d rest hI h2
        rw [hstep]
        apply ih
        · exact fun x hx => hpos x (List.mem_cons_of_mem d hx)
        · exact hA
        · exact hI
        · exact hdin
        · exact hdur
        · show 1 ≤ t.DelayAccumulated + d
          linarith
        · show t.InternalTimer + d < 2
          exact not_le.mp hfl
        · show 2 ≤ t.InternalTimer + d + rest.sum
          rw [List.sum_cons] at hsum
          linarith

/-- From the initial waiting state (timer zero, delay still below the
transition-in delay of `1`) with frames summing to `3`, the flip pattern
holds. -/
theorem flipSpecProp_of_wait (ds : List ℚ) : ∀ t : TimelineComponent,
    (∀ d ∈ ds, 0 < d) →
    t.Active = true → t.IsTransitioningIn = true →
    t.TransitionInDelay = 1 → t.TransitionDuration = 2 →
    t.InternalTimer = 0 → t.DelayAccumulated < 1 →
    t.DelayAccumulated + ds.sum = 3 →
    FlipSpecProp t ds := by
  induction ds with
  | nil =>
      intro t _ _ _ _ _ _ hdel hsum
      rw [List.sum_nil, add_zero] at hsum
      linarith
  | cons d rest ih =>
      intro t hpos hA hI hdin hdur htim hdel hsum
      have hd : 0 < d := hpos d (List.mem_cons_self d rest)
      rw [List.sum_cons] at hsum
      by_cases hcross : t.DelayAccumulated + d < 1
      · have hstep := updateTimelineAux_wait idCb idCb d t hA hI (by rw [hdin]; exact hcross)
        have hstep2 : updateTimeline d t
            = { t with DelayAccumulated := t.DelayAccumulated + d } := by
          rw [updateTimeline, hstep]
        apply flipSpecProp_cons t d rest hI (by rw [htim]; norm_num)
        rw [hstep2]
        apply ih
        · exact fun x hx => hpos x (List.mem_cons_of_mem d hx)
        · exact hA
        · exact hI
        · exact hdin
        · exact hdur
        · exact htim
        · exact hcross
        · show t.DelayAccumulated + d + rest.sum = 3
          linarith
      · have hw : ¬ (t.DelayAccumulated + d < t.TransitionInDelay) := by
          rw [hdin]; exact hcross
        by_cases hbig : 2 ≤ t.InternalTimer + d
        · exact flipSpecProp_here t d rest hA hI hw hdur (by rw [htim]; norm_num) hbig
        · have hstep := updateTimeline_advance_noflip d t hA hI hw
            (by rw [hdur]; exact hbig)
          apply flipSpecProp_cons t d rest hI (by rw [htim]; norm_num)
          rw [hstep]
          apply flipSpecProp_of_mid
          · exact fun x hx => hpos x (List.mem_cons_of_mem d hx)
          · exact hA
          · exact hI
          · exact hdin
          · exact hdur
          · show 1 ≤ t.DelayAccumulated + d
            exact not_lt.mp hcross
          · show t.InternalTimer + d < 2
            exact not_le.mp hbig
          · show 2 ≤ t.InternalTimer + d + rest.sum
            linarith

/-- C1: for an entity processed in play mode with `Active` and
`IsTransitioningIn` set, each frame first accumulates the delay; while the
accumulated delay stays below `TransitionInDelay` nothing else changes and
no callback fires; past the delay the timer advances by `deltaTime` and the
transition-in callback fires exactly when it is bound; reaching
`TransitionDuration` flips `IsTransitioningIn` to `false` with timer and
delay reset to `0`.  Moreover, from `TransitionInDelay = 1`,
`TransitionDuration = 2` and zeroed accumulators, any positive frame
sequence summing to `3` flips `IsTransitioningIn` exactly once — on the
first frame whose post-delay timer reaches `2` — after which it stays
`false`. -/
theorem timeline_transition_in_spec
    (cbIn cbOut : ℚ → TimelineComponent → TimelineComponent)
    (dt : ℚ) (t : TimelineComponent)
    (hA : t.Active = true) (hI : t.IsTransitioningIn = true) :
    (∀ (vis : Nat → Bool) (e : TLEntity), vis e.layerID = true → e.timeline = t →
      (processEntity cbIn cbOut vis dt e).timeline
        = (updateTimelineAux cbIn cbOut dt t).1) ∧
    (t.DelayAccumulated + dt < t.TransitionInDelay →
      updateTimelineAux cbIn cbOut dt t
        = ({ t with DelayAccumulated := t.DelayAccumulated + dt }, false, false)) ∧
    (¬ (t.DelayAccumulated + dt < t.TransitionInDelay) →
      ((updateTimelineAux cbIn cbOut dt t).2.1 = t.TransitionIn ∧
        (updateTimeline dt t).InternalTimer
          = (if t.TransitionDuration ≤ t.InternalTimer + dt then 0
             else t.InternalTimer + dt))) ∧
    (¬ (t.DelayAccumulated + dt < t.TransitionInDelay) →
      t.TransitionDuration ≤ t.InternalTimer + dt →
      updateTimeline dt t
        = { t with IsTransitioningIn := false, InternalTimer := 0,
                   DelayAccumulated := 0 }) ∧
    (∀ (t0 : TimelineComponent) (ds : List ℚ),
      (∀ d ∈ ds, 0 < d) → ds.sum = 3 →
      t0.Active = true → t0.IsTransitioningIn = true →
      t0.TransitionInDelay = 1 → t0.TransitionDuration = 2 →
      t0.InternalTimer = 0 → t0.DelayAccumulated = 0 →
      FlipSpecProp t0 ds) := by
  refine ⟨?_, ?_, ?_, ?_, ?_⟩
  · intro vis e hvis het
    subst het
    by_cases htag : e.timeline.TimelineTag ∈ e.tags <;>
      simp [processEntity, hvis, htag]
  · intro hw
    exact updateTimelineAux_wait cbIn cbOut dt t hA hI hw
  · intro hw
    constructor
    · exact updateTimelineAux_in_event cbIn cbOut dt t hA hI hw
    · by_cases hc : t.TransitionDuration ≤ t.InternalTimer + dt
      · rw [updateTimeline_advance_flip dt t hA hI hw hc, if_pos hc]
      · rw [updateTimeline_advance_noflip dt t hA hI hw hc, if_neg hc]
  · intro hw hc
    exact updateTimeline_advance_flip dt t hA hI hw hc
  · intro t0 ds hpos hsum h1 h2 h3 h4 h5 h6
    exact flipSpecProp_of_wait ds t0 hpos h1 h2 h3 h4 h5 (by rw [h6]; norm_num)
      (by rw [h6, hsum]; norm_num)

/-- C1 witness: the scenario with frames `[1, 2]` from the sample initial
state flips `IsTransitioningIn` exactly once, at the frame where the
post-delay timer reaches `2`. -/
theorem timeline_transition_in_spec_witness :
    FlipSpecProp sampleTimeline [1, 2] :=
  (timeline_transition_in_spec idCb idCb 1 sampleTimeline rfl rfl).2.2.2.2
    sampleTimeline [1, 2] (by decide)
    (by norm_num [List.sum_cons, List.sum_nil]) rfl rfl rfl rfl rfl rfl

end Engine
